import Mathlib

/-!
Verification of the zgoubidoo `Input` container (`zgoubidoo/input.py`).

The development shallowly embeds the `Input` class, its filtering and
serialization operations, the two `InputValidator` validators, and the
beam-binding entry point (`Input.__call__`).  The record ("command") and
beam collaborators live in modules that are not part of the sources under
verification; those parts are modelled from the specification's collaborator
contracts and are marked `Modelled from the spec:` in their doc comments.

File writes are modelled as an explicit list of `WriteOp` values; the OS
temporary-directory allocator is modelled by threading a fresh-identifier
counter; Python object identity for the working-copy `Input` recorded once
per beam slice is modelled by a numeric object identifier (`wcId`).
-/

/-- Default Zgoubi input file name (`ZGOUBI_INPUT_FILENAME`). -/
def ZGOUBI_INPUT_FILENAME : String := "zgoubi.dat"

/-- The fixed particle-count ceiling (`ZGOUBI_IMAX`). -/
def ZGOUBI_IMAX : Nat := 10000

/-- Modelled from the spec: the record kinds of the missing `commands`
module that the sources under verification refer to (`Objet`, `Objet2`,
`MCObjet`, `Particule`, `End`) plus a generic `marker` element kind. -/
inductive CommandKind where
  | objet
  | objet2
  | mcobjet
  | particule
  | endk
  | marker
deriving DecidableEq, Repr

/-- Modelled from the spec: the Python class name of each record kind, as
used by `__getitem__` when deriving the filtered input's name. -/
def CommandKind.pyName : CommandKind → String
  | .objet => "Objet"
  | .objet2 => "Objet2"
  | .mcobjet => "MCObjet"
  | .particule => "Particule"
  | .endk => "End"
  | .marker => "Marker"

/-- Modelled from the spec: the `isinstance` relation induced by the
`commands` class hierarchy.  `Objet2` is a subclass of `Objet`
(the Objet family); `MCObjet`, `Particule`, `End` and the generic marker
are unrelated classes.  `k.matches d` holds when an instance of runtime
class `k` is an instance of the discriminator class `d`. -/
def CommandKind.matches : CommandKind → CommandKind → Bool
  | .objet2, .objet => true
  | k, d => k == d

/-- Modelled from the spec: the record collaborator contract.  A record
exposes two optional labels, an optional `IMAX` bound, a clearable and
loadable particle payload (for the Objet kinds), a set of named public
attributes whose values may be null, and its textual rendering
(`__str__`). -/
structure Command where
  kind : CommandKind
  label1 : String := ""
  label2 : String := ""
  imax : Option Nat := none
  payload : List Nat := []
  attrs : List (String × Option Int) := []
  strForm : String := ""
deriving DecidableEq, Repr

/-- Modelled from the spec: probing a record for a named attribute.
Yields the attribute's value when the record exposes it; a record lacking
the attribute is indistinguishable from one holding a null value (both
are skipped by the container's bulk assignment). -/
def Command.probeAttr (c : Command) (k : String) : Option Int :=
  match c.attrs.find? (fun p => p.1 == k) with
  | some p => p.2
  | none => none

/-- Modelled from the spec: setting a named attribute on a record
(`setattr(e, key, value)`). -/
def Command.setAttr (c : Command) (k : String) (v : Int) : Command :=
  { c with attrs := c.attrs.map (fun p => if p.1 == k then (p.1, some v) else p) }

/-- A record of the Objet family in the spec's sense: an instance of
`Objet` (which includes `Objet2`) or of `MCObjet`. -/
def Command.isObjetFamily (c : Command) : Bool :=
  c.kind.matches .objet || c.kind.matches .mcobjet

/-- The fresh terminal record appended by `build` (`commands.End()`). -/
def commandEnd : Command := { kind := .endk, strForm := "END" }

/-- A type discriminator accepted by filtered access: either a concrete
record type or its textual class name. -/
inductive Discr where
  | ofType (k : CommandKind)
  | ofStr (s : String)
deriving DecidableEq, Repr

/-- Modelled from the spec: `getattr(commands, s)` resolution of a textual
discriminator against the known record type names; an unknown name raises
`AttributeError` in the source, modelled here as `none`. -/
def resolveStr (s : String) : Option CommandKind :=
  if s = "Objet" then some .objet
  else if s = "Objet2" then some .objet2
  else if s = "MCObjet" then some .mcobjet
  else if s = "Particule" then some .particule
  else if s = "End" then some .endk
  else if s = "Marker" then some .marker
  else none

/-- Resolution of a single discriminator: a type object is kept as is, a
string is looked up in the `commands` module. -/
def resolveDiscr : Discr → Option CommandKind
  | .ofType k => some k
  | .ofStr s => resolveStr s

/-- Resolution of the whole discriminator tuple
(`tuple(map(lambda x: getattr(commands, x) if isinstance(x, str) else x, items))`):
the first failing lookup aborts the whole resolution (`AttributeError`). -/
def resolveItems : List Discr → Option (List CommandKind)
  | [] => some []
  | d :: ds =>
    match resolveDiscr d, resolveItems ds with
    | some k, some ks => some (k :: ks)
    | _, _ => none

/-- A record matches a discriminator set when it is an instance of at
least one of the resolved types
(`reduce(lambda u, v: u or v, [isinstance(x, i) for i in items])`). -/
def matchesAny (ks : List CommandKind) (c : Command) : Bool :=
  ks.any (fun k => c.kind.matches k)

/-- `Input._filter`: resolve the discriminators; a failed resolution yields
the empty result, otherwise keep, in order, the records matching at least
one discriminator.  (The source raises for an empty discriminator tuple
applied to a non-empty line; theorems below only use non-empty tuples.) -/
def filterLine (line : List Command) (items : List Discr) : List Command :=
  match resolveItems items with
  | none => []
  | some ks => line.filter (matchesAny ks)

/-- A tracked path handle: either a plain path string or a scoped
temporary directory (`tempfile.TemporaryDirectory`), identified by the
fresh number under which it was allocated. -/
inductive PathHandle where
  | plain (s : String)
  | tempDir (id : Nat)
deriving DecidableEq, Repr

/-- A handle supporting scoped release exposes its identifier; a plain
path string raises `AttributeError` on `p.cleanup()` (skipped). -/
def PathHandle.releaseId : PathHandle → Option Nat
  | .plain _ => none
  | .tempDir i => some i

/-- One file write performed by `Input.write`: target directory, file
name and the rendered text. -/
structure WriteOp where
  path : String
  filename : String
  content : String
deriving DecidableEq, Repr

/-- The structured error raised for Zgoubi input violations. -/
structure ZgoubiInputException where
  message : String
deriving DecidableEq, Repr

/-- The `Input` container: an ordered record sequence, a name, the
tracked generated paths, the sibling-input object identifiers recorded
during beam expansion, and the optical-length accumulator. -/
structure Input where
  name : String := "beamline"
  line : List Command := []
  paths : List PathHandle := []
  inputs : List Nat := []
  opticalLength : Int := 0
deriving DecidableEq, Repr

/-- Does the sequence end with a terminal `End` record
(`isinstance(line[-1], commands.End)` on a non-empty sequence)? -/
def endsWithEnd (line : List Command) : Bool :=
  match line.getLast? with
  | some c => c.kind.matches .endk
  | none => false

/-- `Input.build`: if the sequence is empty or does not end with an `End`
record, append one; return the rendered text (the stringified name
followed by every record's stringified form, in order) together with the
mutated sequence. -/
def Input.build (name : String) (line : List Command) : String × List Command :=
  let line2 := if line.isEmpty || !endsWithEnd line then line ++ [commandEnd] else line
  (name ++ String.join (line2.map Command.strForm), line2)

/-- Python `repr` of a string (single-quoted). -/
def pyStrRepr (s : String) : String := "\x27" ++ s ++ "\x27"

/-- Python `str` of a tuple of strings, including the trailing comma of a
one-element tuple. -/
def pyTupleRepr : List String → String
  | [] => "()"
  | [s] => "(" ++ pyStrRepr s ++ ",)"
  | ss => "(" ++ String.intercalate ", " (ss.map pyStrRepr) ++ ")"

/-- The display name used for a discriminator when deriving the filtered
input's name (`x.__name__ if isinstance(x, type) else x`). -/
def Discr.displayName : Discr → String
  | .ofType k => k.pyName
  | .ofStr s => s

/-- The deterministic name of a filtered input:
`f"{name}_filtered_by_{items}"` followed by the source's replacements and
the trailing-underscore strip. -/
def filteredName (name : String) (items : List Discr) : String :=
  (((((name ++ "_filtered_by_" ++ pyTupleRepr (items.map Discr.displayName)).replace
      "," "_").replace " " "").replace "\x27" "").replace "(" "").replace ")" ""
    |>.dropRightWhile (fun c => c == '_')

/-- `Input.__getitem__` in its filtering form: a new `Input` (fresh
bookkeeping state, as built by the constructor) holding the matching
records in original order, named deterministically from the filter. -/
def Input.getitem (zi : Input) (items : List Discr) : Input :=
  { name := filteredName zi.name items, line := filterLine zi.line items }

/-- `Input.__contains__`: the count of records matching the
discriminator set. -/
def Input.containsCount (zi : Input) (items : List Discr) : Nat :=
  (filterLine zi.line items).length

/-- `Input.__setattr__` for a public (non-underscore) attribute name: set
the attribute on every record whose probe for it is non-null, leaving the
other records unchanged. -/
def Input.setattrPublic (zi : Input) (k : String) (v : Int) : Input :=
  { zi with line := zi.line.map (fun e => if (e.probeAttr k).isSome then e.setAttr k v else e) }

/-- `Input.cleanup`: release every tracked handle that supports release
(skipping, via the swallowed `AttributeError`, those that do not) and
reset the tracked-paths list; returns the new state and the identifiers
of the released temporary directories, in order. -/
def Input.cleanup (zi : Input) : Input × List Nat :=
  ({ zi with paths := [] }, zi.paths.filterMap PathHandle.releaseId)

/-- `Input.increase_optical_length`: add the given length quantity to the
accumulator. -/
def Input.increase_optical_length (zi : Input) (l : Int) : Input :=
  { zi with opticalLength := zi.opticalLength + l }

/-- `Input.apply`: replace the sequence by mapping a function over it. -/
def Input.applyMap (zi : Input) (f : Command → Command) : Input :=
  { zi with line := zi.line.map f }

/-- `Input.__iadd__`: append a record at the end. -/
def Input.appendCmd (zi : Input) (c : Command) : Input :=
  { zi with line := zi.line ++ [c] }

/-- `Input.validate`: run the validators in order; the first failure
aborts and propagates, otherwise return success. -/
def Input.validate (zi : Input)
    (vs : List (Input → Except ZgoubiInputException Bool)) :
    Except ZgoubiInputException Bool :=
  match vs with
  | [] => .ok true
  | v :: rest =>
    match v zi with
    | .error e => .error e
    | .ok _ => zi.validate rest

/-- `Input.write` as used by `__call__` (mode `w`, no validators): render
the input with `build` — note that `str(input)` mutates the input's own
line by appending a terminal `End` when missing — and return the write
operation together with the mutated input. -/
def Input.writeTo (zi : Input) (filename path : String) : WriteOp × Input :=
  let r := Input.build zi.name zi.line
  ({ path := path, filename := filename, content := r.1 }, { zi with line := r.2 })

/-- Modelled from the spec: the beam collaborator contract of the missing
`beam` module — a rigidity value, a particle-record factory, an objet
record factory parameterized by rigidity, and an optional distribution
already split into slices of individual particles. -/
structure Beam where
  brho : Nat
  particle : Command
  objet : Nat → Command
  distribution : Option (List (List Nat))

/-- The name of a scoped temporary directory allocated under fresh
identifier `id`. -/
def tempDirName (id : Nat) : String := "tmpdir" ++ toString id

/-- `objet.clear(); objet += s`: the objet is the head of the working
copy's line; replace its payload by the slice. -/
def Input.setHeadPayload (zi : Input) (s : List Nat) : Input :=
  match zi.line with
  | [] => zi
  | c :: cs => { zi with line := { c with payload := s } :: cs }

/-- The message of the slice-ceiling error raised during beam binding. -/
def imaxSliceMsg : String :=
  "Trying to track too many particles (IMAX=" ++ toString ZGOUBI_IMAX ++
    "). Try to increase the number of slices."

/-- The message of the error raised when binding a beam to an input that
already holds particle/objet records. -/
def bindMsg : String :=
  "When applying a Beam on an Input, the input should not contain any Particle or Objet."

/-- The outcome of `Input.__call__`: either success carrying the updated
self, the working copy (with its object identifier) when one was built,
and the file writes performed; or the structured error together with the
state and the writes at the moment it was raised (Python exceptions do
not roll back effects). -/
inductive CallOutcome where
  | ok (self : Input) (gen : Option (Nat × Input)) (writes : List WriteOp)
  | err (e : ZgoubiInputException) (self : Input) (writes : List WriteOp)
deriving DecidableEq, Repr

/-- Is the outcome an error? -/
def CallOutcome.isErr : CallOutcome → Bool
  | .err _ _ _ => true
  | .ok _ _ _ => false

/-- The per-slice loop of `Input.__call__` under a beam with a
distribution: for each slice in order, fail when it exceeds the ceiling,
otherwise clear and reload the objet (the head of the working copy),
allocate a fresh temporary directory, record the path and the working
copy's identifier on self, and write the working copy there. -/
def loopSlices (filename : String) (wcId : Nat) :
    List (List Nat) → Input → Input → Nat → List WriteOp → CallOutcome
  | [], self, wc, _, ws => .ok self (some (wcId, wc)) ws
  | s :: rest, self, wc, fresh, ws =>
    if s.length > ZGOUBI_IMAX then
      .err { message := imaxSliceMsg } self ws
    else
      let wc1 := wc.setHeadPayload s
      let self1 := { self with paths := self.paths ++ [PathHandle.tempDir fresh],
                               inputs := self.inputs ++ [wcId] }
      let r := wc1.writeTo filename (tempDirName fresh)
      loopSlices filename wcId rest self1 r.2 (fresh + 1) (ws ++ [r.1])

/-- `Input.__call__`: with no beam, record the plain path and write self
(mutating self's line through `str`).  With a beam, require that the
input holds no `Objet2` and no `Particule` record, build the working copy
with the objet first and the particle second, then either write one input
(no distribution) or one input per slice.  `wcId` is the working copy's
object identifier and `fresh` the temporary-directory counter. -/
def Input.call (zi : Input) (beam : Option Beam) (filename path : String)
    (wcId fresh : Nat) : CallOutcome :=
  match beam with
  | none =>
    let zi1 := { zi with paths := zi.paths ++ [PathHandle.plain path] }
    let r := zi1.writeTo filename path
    .ok r.2 none [r.1]
  | some b =>
    let objets := filterLine zi.line [.ofType .objet2]
    let particules := filterLine zi.line [.ofType .particule]
    if objets.length == 0 && particules.length == 0 then
      let gen1 : Input := { name := zi.name, line := b.particle :: zi.line }
      let gen2 : Input := { gen1 with line := b.objet b.brho :: gen1.line }
      match b.distribution with
      | none =>
        let gen3 := gen2.setHeadPayload []
        let self1 := { zi with paths := zi.paths ++ [PathHandle.tempDir fresh],
                               inputs := zi.inputs ++ [wcId] }
        let r := gen3.writeTo filename (tempDirName fresh)
        .ok self1 (some (wcId, r.2)) [r.1]
      | some slices => loopSlices filename wcId slices zi gen2 fresh []
    else
      .err { message := bindMsg } zi []

/-- `InputValidator.validate_objet_is_first_command`: pass on an empty
input or one whose first record is of the Objet family; otherwise raise. -/
def InputValidator.validate_objet_is_first_command (zi : Input) :
    Except ZgoubiInputException Bool :=
  match zi.line.head? with
  | none => .ok true
  | some c =>
    if !(c.kind.matches .objet || c.kind.matches .mcobjet) then
      .error { message := "The first command in the input is not an Objet. (or MCObjet)." }
    else
      .ok true

/-- The error message of the ceiling validator for an offending record. -/
def imaxExceededMsg (o : Command) : String :=
  "Objet " ++ o.label1 ++ " IMAX exceeds maximum value (" ++ toString ZGOUBI_IMAX ++ ")."

/-- `InputValidator.validate_objets_do_not_exceed_imax`: over the
Objet/MCObjet records obtained by filtered access, in order, raise on the
first whose bound (`o.IMAX or 0.0`, so an unset bound counts as 0)
exceeds the ceiling; otherwise pass. -/
def InputValidator.validate_objets_do_not_exceed_imax (zi : Input) :
    Except ZgoubiInputException Bool :=
  let objets := (zi.getitem [.ofType .objet, .ofType .mcobjet]).line
  match objets.find? (fun o => o.imax.getD 0 > ZGOUBI_IMAX) with
  | some o => .error { message := imaxExceededMsg o }
  | none => .ok true

/-!
A reference-aware view of the record list, used for the frame properties
of filtered access.  Python lists are heap-allocated and mutable:
`list(filter(...))` allocates a fresh list for the filtered input while
sharing the record objects, so appending to or rendering the filtered
input must not disturb the original input's list.
-/

/-- The heap of allocated record lists, indexed by reference. -/
structure Heap where
  lists : List (List Command)
deriving DecidableEq, Repr

/-- Read the list held at a reference (empty for a dangling reference). -/
def Heap.get (h : Heap) (r : Nat) : List Command :=
  (h.lists[r]?).getD []

/-- Overwrite the list held at a reference. -/
def Heap.set (h : Heap) (r : Nat) (l : List Command) : Heap :=
  { lists := h.lists.set r l }

/-- Allocate a fresh list, returning the new heap and the fresh
reference. -/
def Heap.alloc (h : Heap) (l : List Command) : Heap × Nat :=
  ({ lists := h.lists ++ [l] }, h.lists.length)

/-- An `Input` whose record list lives on the heap. -/
structure RInput where
  name : String
  lineRef : Nat
deriving DecidableEq, Repr

/-- `Input.__getitem__` (filtering form) on the heap view:
`list(filter(...))` allocates a fresh list holding the matching records
(shared by reference with the original), and the new `Input` wraps that
fresh list. -/
def RInput.getitemR (zi : RInput) (h : Heap) (items : List Discr) : Heap × RInput :=
  let a := h.alloc (filterLine (h.get zi.lineRef) items)
  (a.1, { name := filteredName zi.name items, lineRef := a.2 })

/-- `Input.__iadd__` on the heap view: append to the input's own list. -/
def RInput.appendR (zi : RInput) (h : Heap) (c : Command) : Heap :=
  h.set zi.lineRef (h.get zi.lineRef ++ [c])

/-- Rendering (`str`/`build`) on the heap view: `build` mutates the list
it is given (it may append a terminal `End`), so the input's own list is
overwritten with the mutated one. -/
def RInput.buildR (zi : RInput) (h : Heap) : Heap × String :=
  let r := Input.build zi.name (h.get zi.lineRef)
  (h.set zi.lineRef r.2, r.1)

/-- The mutating operations of the container, used to state invariants
over arbitrary operation sequences. -/
inductive Op where
  | append (c : Command)
  | incr (l : Int)
  | setPublicAttr (k : String) (v : Int)
  | doCleanup
  | applyMap (f : Command → Command)

/-- One operation step on an `Input`. -/
def Input.step (zi : Input) : Op → Input
  | .append c => zi.appendCmd c
  | .incr l => zi.increase_optical_length l
  | .setPublicAttr k v => zi.setattrPublic k v
  | .doCleanup => (zi.cleanup).1
  | .applyMap f => zi.applyMap f

/-- An operation whose optical-length contribution is a nonnegative
quantity (every operation other than `increase_optical_length` leaves the
accumulator unchanged). -/
def Op.incrOk : Op → Prop
  | .incr l => 0 ≤ l
  | _ => True

/-- A concrete input free of Particule and Objet-family records, used as
witness data. -/
def sampleInputFree : Input := { line := [{ kind := CommandKind.marker }] }

/-- A concrete beam whose distribution is split into two slices of sizes
2 and 1, used as witness data. -/
def sampleBeam : Beam :=
  { brho := 42
    particle := { kind := CommandKind.particule }
    objet := fun n => { kind := CommandKind.objet2, imax := some n }
    distribution := some [[1, 2], [3]] }

/-- A concrete beam with an oversized slice, used as witness data. -/
def sampleBeamOversized : Beam :=
  { brho := 42
    particle := { kind := CommandKind.particule }
    objet := fun n => { kind := CommandKind.objet2, imax := some n }
    distribution := some [List.replicate 10001 0] }

/-- A concrete two-record heap used as witness data. -/
def sampleHeap : Heap :=
  { lists := [[{ kind := CommandKind.objet2 }, { kind := CommandKind.marker }]] }

/-- A concrete heap-backed input wrapping `sampleHeap`'s only list. -/
def sampleRInput : RInput := { name := "beamline", lineRef := 0 }

theorem endsWithEnd_nil : endsWithEnd [] = false := rfl

theorem endsWithEnd_concat (l : List Command) (c : Command) :
    endsWithEnd (l ++ [c]) = c.kind.matches .endk := by
  simp [endsWithEnd, List.getLast?_concat]

theorem endsWithEnd_ne_nil (l : List Command) (h : endsWithEnd l = true) :
    l.isEmpty = false := by
  cases l with
  | nil => simp [endsWithEnd] at h
  | cons a as => rfl

/-- C3: rendering a record sequence appends exactly one terminal `End`
record if and only if the sequence was empty or did not already end with
one (so the length grows by one exactly in that case); rendering the
mutated sequence again returns it unchanged (no growth on a second
render); and the returned text is the stringified name followed by the
stringified form of every record of the rendered sequence in order. -/
theorem build_appends_end_iff (name : String) (line : List Command) :
    (Input.build name line).2 = (if endsWithEnd line then line else line ++ [commandEnd])
  ∧ (Input.build name line).2.length = line.length + (if endsWithEnd line then 0 else 1)
  ∧ (Input.build name ((Input.build name line).2)).2 = (Input.build name line).2
  ∧ (Input.build name line).1
      = name ++ String.join (((Input.build name line).2).map Command.strForm) := by
  by_cases h : endsWithEnd line = true
  · have hne := endsWithEnd_ne_nil line h
    refine ⟨by simp [Input.build, h, hne], by simp [Input.build, h, hne], ?_, by rfl⟩
    simp [Input.build, h, hne]
  · have h' : endsWithEnd line = false := by simpa using h
    have h2 : endsWithEnd (line ++ [commandEnd]) = true := by
      simp [endsWithEnd_concat, commandEnd, CommandKind.matches]
    have hb : (Input.build name line).2 = line ++ [commandEnd] := by
      simp [Input.build, h']
    refine ⟨by simp [hb, h'], by simp [hb, h'], ?_, by rfl⟩
    rw [hb]
    simp [Input.build, h2, endsWithEnd_ne_nil _ h2]

/-- C9: `cleanup` releases exactly the tracked handles that support
scoped release (the temporary directories, in order), skips the plain
path strings without raising (the function is total), and resets the
tracked-paths list to empty; a second `cleanup` is a no-op on the
already-empty list and releases nothing. -/
theorem cleanup_releases_and_is_idempotent (zi : Input) :
    zi.cleanup = ({ zi with paths := [] }, zi.paths.filterMap PathHandle.releaseId)
  ∧ (zi.cleanup).1.cleanup = ((zi.cleanup).1, []) :=
  ⟨rfl, rfl⟩

/-- C6: filtering by a textual discriminator that does not name a known
record type yields an empty filtered input and a zero membership count;
the lookup failure is downgraded to an empty result, never an error (the
operation is total). -/
theorem filter_unknown_discr_empty (zi : Input) (s : String)
    (h : resolveStr s = none) :
    (zi.getitem [Discr.ofStr s]).line = [] ∧ zi.containsCount [Discr.ofStr s] = 0 := by
  have hr : resolveItems [Discr.ofStr s] = none := by
    simp [resolveItems, resolveDiscr, h]
  exact ⟨by simp [Input.getitem, filterLine, hr], by simp [Input.containsCount, filterLine, hr]⟩

theorem filter_unknown_discr_empty_witness :
    resolveStr "NotACommand" = none
  ∧ ((Input.getitem { line := [{ kind := CommandKind.objet }] } [Discr.ofStr "NotACommand"]).line = []
      ∧ Input.containsCount { line := [{ kind := CommandKind.objet }] } [Discr.ofStr "NotACommand"] = 0) :=
  ⟨by decide, filter_unknown_discr_empty { line := [{ kind := CommandKind.objet }] } "NotACommand" (by decide)⟩

theorem resolveItems_ofType (ds : List CommandKind) :
    resolveItems (ds.map Discr.ofType) = some ds := by
  induction ds with
  | nil => rfl
  | cons d ds ih => simp [resolveItems, resolveDiscr, ih, List.map_cons]

/-- C5: filtered access by a (non-empty) set of type discriminators
returns a new `Input` whose records are exactly the records of the
original whose runtime type matches at least one discriminator, in the
original relative order (`List.filter` preserves order), and the
membership test reports exactly the size of that filtered result. -/
theorem getitem_filter_matches_and_count (zi : Input) (ds : List CommandKind)
    (h : ds ≠ []) :
    (zi.getitem (ds.map Discr.ofType)).line
      = zi.line.filter (fun c => ds.any (fun k => c.kind.matches k))
  ∧ zi.containsCount (ds.map Discr.ofType)
      = ((zi.getitem (ds.map Discr.ofType)).line).length := by
  have hr := resolveItems_ofType ds
  refine ⟨?_, by simp [Input.containsCount, Input.getitem, filterLine, hr]⟩
  simp only [Input.getitem, filterLine, hr]
  rfl

theorem getitem_filter_matches_and_count_witness :
    ([CommandKind.objet, CommandKind.particule] ≠ ([] : List CommandKind))
  ∧ ((Input.getitem
        { line := [{ kind := CommandKind.objet2 }, { kind := CommandKind.endk },
                   { kind := CommandKind.particule }] }
        ([CommandKind.objet, CommandKind.particule].map Discr.ofType)).line
      = [{ kind := CommandKind.objet2 }, { kind := CommandKind.particule }]
  ∧ Input.containsCount
        { line := [{ kind := CommandKind.objet2 }, { kind := CommandKind.endk },
                   { kind := CommandKind.particule }] }
        ([CommandKind.objet, CommandKind.particule].map Discr.ofType) = 2) := by
  have hmain := getitem_filter_matches_and_count
    { line := [{ kind := CommandKind.objet2 }, { kind := CommandKind.endk },
               { kind := CommandKind.particule }] }
    [CommandKind.objet, CommandKind.particule] (by decide)
  refine ⟨by decide, ?_, ?_⟩
  · rw [hmain.1]; decide
  · rw [hmain.2, hmain.1]; decide

/-- C2: bulk attribute assignment on the container keeps the record count
and, position by position, overwrites exactly the records whose probe for
the attribute is non-null (a record lacking the attribute probes null and
is skipped, like one holding a null value); the operation is total, so no
error is raised. -/
theorem setattr_public_targets (zi : Input) (k : String) (v : Int) (i : Nat)
    (hi : i < zi.line.length) :
    (zi.setattrPublic k v).line.length = zi.line.length
  ∧ (((zi.line[i]).probeAttr k).isSome = true →
      (zi.setattrPublic k v).line[i]? = some ((zi.line[i]).setAttr k v))
  ∧ (((zi.line[i]).probeAttr k).isSome = false →
      (zi.setattrPublic k v).line[i]? = some (zi.line[i])) := by
  have hmap : (zi.setattrPublic k v).line[i]?
      = (zi.line[i]?).map (fun e => if (e.probeAttr k).isSome then e.setAttr k v else e) := by
    simp [Input.setattrPublic]
  have hsome : zi.line[i]? = some (zi.line[i]) := List.getElem?_eq_getElem hi
  refine ⟨by simp [Input.setattrPublic], ?_, ?_⟩
  · intro hp
    rw [hmap, hsome]
    simp [hp]
  · intro hp
    rw [hmap, hsome]
    simp [hp]

theorem setattr_public_targets_witness :
    ((Input.setattrPublic
        { line := [{ kind := CommandKind.marker, attrs := [("XL", some 3)] },
                   { kind := CommandKind.marker, attrs := [("XL", none)] },
                   { kind := CommandKind.marker }] } "XL" 7).line.length = 3
      ∧ ((((({ line := [{ kind := CommandKind.marker, attrs := [("XL", some 3)] },
                   { kind := CommandKind.marker, attrs := [("XL", none)] },
                   { kind := CommandKind.marker }] } : Input).line[0]).probeAttr "XL").isSome = true) →
          (Input.setattrPublic
        { line := [{ kind := CommandKind.marker, attrs := [("XL", some 3)] },
                   { kind := CommandKind.marker, attrs := [("XL", none)] },
                   { kind := CommandKind.marker }] } "XL" 7).line[0]?
            = some ((({ line := [{ kind := CommandKind.marker, attrs := [("XL", some 3)] },
                   { kind := CommandKind.marker, attrs := [("XL", none)] },
                   { kind := CommandKind.marker }] } : Input).line[0]).setAttr "XL" 7))
      ∧ ((((({ line := [{ kind := CommandKind.marker, attrs := [("XL", some 3)] },
                   { kind := CommandKind.marker, attrs := [("XL", none)] },
                   { kind := CommandKind.marker }] } : Input).line[0]).probeAttr "XL").isSome = false) →
          (Input.setattrPublic
        { line := [{ kind := CommandKind.marker, attrs := [("XL", some 3)] },
                   { kind := CommandKind.marker, attrs := [("XL", none)] },
                   { kind := CommandKind.marker }] } "XL" 7).line[0]?
            = some (({ line := [{ kind := CommandKind.marker, attrs := [("XL", some 3)] },
                   { kind := CommandKind.marker, attrs := [("XL", none)] },
                   { kind := CommandKind.marker }] } : Input).line[0]))) :=
  setattr_public_targets
    { line := [{ kind := CommandKind.marker, attrs := [("XL", some 3)] },
               { kind := CommandKind.marker, attrs := [("XL", none)] },
               { kind := CommandKind.marker }] } "XL" 7 0 (by decide)

theorem step_optical_mono (zi : Input) (op : Op) (h : op.incrOk) :
    zi.opticalLength ≤ (zi.step op).opticalLength := by
  cases op with
  | incr l =>
    simp only [Input.step, Input.increase_optical_length, Op.incrOk] at h ⊢
    omega
  | append c => simp [Input.step, Input.appendCmd]
  | setPublicAttr k v => simp [Input.step, Input.setattrPublic]
  | doCleanup => simp [Input.step, Input.cleanup]
  | applyMap f => simp [Input.step, Input.applyMap]

/-- C8 (amended): `increase_optical_length` adds exactly the given
quantity to the accumulator, and over any sequence of container
operations in which every added length quantity is nonnegative the
accumulator never decreases.  (With a negative quantity the plain `+=`
of the source does decrease it; see the counterexample.) -/
theorem optical_length_monotone (zi : Input) (l : Int) (ops : List Op)
    (h : ∀ op ∈ ops, op.incrOk) :
    (zi.step (Op.incr l)).opticalLength = zi.opticalLength + l
  ∧ zi.opticalLength ≤ (ops.foldl Input.step zi).opticalLength := by
  refine ⟨rfl, ?_⟩
  induction ops generalizing zi with
  | nil => simp
  | cons op rest ih =>
    simp only [List.foldl_cons]
    exact le_trans (step_optical_mono zi op (h op (by simp)))
      (ih (zi.step op) (fun o ho => h o (by simp [ho])))

theorem optical_length_monotone_witness :
    ((Input.step { opticalLength := 5 } (Op.incr 2)).opticalLength = 5 + 2)
  ∧ (({ opticalLength := 5 } : Input).opticalLength
      ≤ ([Op.incr 2, Op.doCleanup, Op.append commandEnd].foldl Input.step
          { opticalLength := 5 }).opticalLength) :=
  optical_length_monotone { opticalLength := 5 } 2 [Op.incr 2, Op.doCleanup, Op.append commandEnd]
    (by intro op hop
        simp only [List.mem_cons, List.mem_singleton] at hop
        rcases hop with h | h | h | h
        · rw [h]; exact Int.le.intro 2 rfl
        · rw [h]; trivial
        · rw [h]; trivial
        · cases h)

/-- C8 counterexample: the claim that the accumulator's value after any
operation is at least its value before fails on the code: the source's
`+=` applied to a negative length quantity strictly decreases the
accumulator. -/
theorem optical_length_decrease_counterexample :
    (Input.step {} (Op.incr (-1))).opticalLength < ({} : Input).opticalLength := by
  simp [Input.step, Input.increase_optical_length]

/-- C7: the ceiling validator passes whenever every Objet/MCObjet record
obtained by filtered access has its bound — with an unset `IMAX` read as
0 (`o.IMAX or 0.0`) — at most the ceiling 10000, and for the first such
record whose bound exceeds the ceiling it raises the structured error
naming the record's label and the ceiling. -/
theorem imax_validator_spec (zi : Input) :
    ((∀ o ∈ (zi.getitem [Discr.ofType CommandKind.objet, Discr.ofType CommandKind.mcobjet]).line,
        o.imax.getD 0 ≤ ZGOUBI_IMAX) →
      InputValidator.validate_objets_do_not_exceed_imax zi = .ok true)
  ∧ (∀ o : Command,
      ((zi.getitem [Discr.ofType CommandKind.objet, Discr.ofType CommandKind.mcobjet]).line.find?
          (fun o => o.imax.getD 0 > ZGOUBI_IMAX) = some o) →
      InputValidator.validate_objets_do_not_exceed_imax zi
        = .error { message := imaxExceededMsg o }) := by
  constructor
  · intro hall
    have hnone : (zi.getitem [Discr.ofType CommandKind.objet,
        Discr.ofType CommandKind.mcobjet]).line.find?
          (fun o => o.imax.getD 0 > ZGOUBI_IMAX) = none := by
      rw [List.find?_eq_none]
      intro o ho
      simpa using hall o ho
    simp [InputValidator.validate_objets_do_not_exceed_imax, hnone]
  · intro o ho
    simp [InputValidator.validate_objets_do_not_exceed_imax, ho]

theorem imax_validator_spec_witness :
    (InputValidator.validate_objets_do_not_exceed_imax
        { line := [{ kind := CommandKind.objet, imax := some 10000 },
                   { kind := CommandKind.mcobjet }] } = .ok true)
  ∧ (InputValidator.validate_objets_do_not_exceed_imax
        { line := [{ kind := CommandKind.objet, label1 := "OBJ1", imax := some 10001 }] }
      = .error { message := "Objet OBJ1 IMAX exceeds maximum value (10000)." }) := by
  constructor
  · exact (imax_validator_spec _).1 (by decide)
  · have h := (imax_validator_spec
        { line := [{ kind := CommandKind.objet, label1 := "OBJ1", imax := some 10001 }] }).2
      { kind := CommandKind.objet, label1 := "OBJ1", imax := some 10001 } (by decide)
    rw [h]
    rfl

/-- C1 (amended): binding a beam to an `Input` that already contains at
least one record matching the `Objet2` discriminator or at least one
`Particule` record raises the structured "should not contain any Particle
or Objet" error, performs no writes, and leaves the input (in particular
its tracked paths and sibling-inputs lists) unchanged.  The source checks
only the `Objet2` and `Particule` discriminators, so Objet-family records
that are not `Objet2` instances (plain `Objet`, `MCObjet`) do not trigger
the error; see the counterexample. -/
theorem call_bind_rejects (zi : Input) (b : Beam) (fn p : String) (wcId fresh : Nat)
    (h : (filterLine zi.line [Discr.ofType CommandKind.objet2]).length ≠ 0
       ∨ (filterLine zi.line [Discr.ofType CommandKind.particule]).length ≠ 0) :
    Input.call zi (some b) fn p wcId fresh
      = .err { message := bindMsg } zi [] := by
  have hcond : ((filterLine zi.line [Discr.ofType CommandKind.objet2]).length == 0
      && ((filterLine zi.line [Discr.ofType CommandKind.particule]).length == 0)) = false := by
    rcases h with h | h
    · have h0 : ((filterLine zi.line [Discr.ofType CommandKind.objet2]).length == 0) = false := by
        simpa using h
      simp [h0]
    · have h0 : ((filterLine zi.line [Discr.ofType CommandKind.particule]).length == 0) = false := by
        simpa using h
      simp [h0]
  simp [Input.call, hcond]

theorem call_bind_rejects_witness :
    Input.call { line := [{ kind := CommandKind.particule }] }
      (some { brho := 1, particle := { kind := CommandKind.particule },
              objet := fun _ => { kind := CommandKind.objet2 }, distribution := none })
      ZGOUBI_INPUT_FILENAME "." 0 0
      = .err { message := bindMsg } { line := [{ kind := CommandKind.particule }] } [] :=
  call_bind_rejects { line := [{ kind := CommandKind.particule }] }
    { brho := 1, particle := { kind := CommandKind.particule },
      objet := fun _ => { kind := CommandKind.objet2 }, distribution := none }
    ZGOUBI_INPUT_FILENAME "." 0 0 (Or.inr (by decide))

/-- C1 counterexample: an `Input` holding one `MCObjet` record — a record
of the Objet family — does not make the beam-binding call raise: the
source's check filters only by the `Objet2` and `Particule`
discriminators, an `MCObjet` instance matches neither, and the call
succeeds (and writes) instead of raising. -/
theorem call_bind_mcobjet_counterexample :
    (({ line := [{ kind := CommandKind.mcobjet }] } : Input).line.any Command.isObjetFamily = true)
  ∧ (Input.call { line := [{ kind := CommandKind.mcobjet }] }
      (some { brho := 1, particle := { kind := CommandKind.particule },
              objet := fun _ => { kind := CommandKind.objet2 }, distribution := none })
      ZGOUBI_INPUT_FILENAME "." 0 0).isErr = false := by
  exact ⟨by decide, rfl⟩

theorem Heap.get_alloc_new (h : Heap) (l : List Command) :
    ((h.alloc l).1).get (h.alloc l).2 = l := by
  simp [Heap.alloc, Heap.get, List.getElem?_concat_length]

theorem Heap.get_alloc_old (h : Heap) (l : List Command) (r : Nat)
    (hr : r < h.lists.length) :
    ((h.alloc l).1).get r = h.get r := by
  simp [Heap.alloc, Heap.get, List.getElem?_append_left hr]

theorem Heap.get_set_ne (h : Heap) (r1 r2 : Nat) (l : List Command)
    (hne : r1 ≠ r2) :
    (h.set r1 l).get r2 = h.get r2 := by
  simp [Heap.set, Heap.get, List.getElem?_set_ne hne]

theorem RInput.appendR_frame (h : Heap) (zi : RInput) (c : Command) (r : Nat)
    (hne : zi.lineRef ≠ r) :
    (zi.appendR h c).get r = h.get r :=
  Heap.get_set_ne h zi.lineRef r _ hne

theorem RInput.buildR_frame (h : Heap) (zi : RInput) (r : Nat)
    (hne : zi.lineRef ≠ r) :
    ((zi.buildR h).1).get r = h.get r :=
  Heap.get_set_ne h zi.lineRef r _ hne

/-- C10: filtered access allocates a fresh record list for the returned
`Input`: the new reference differs from the original's, its contents are
the filtered records of the original list (the record values themselves
are shared), and neither appending a record to the filtered input nor
rendering it (which may append a terminal `End` to its own list) changes
the list held at the original input's reference. -/
theorem getitem_fresh_list_frame (h : Heap) (zi : RInput) (items : List Discr)
    (c : Command) (hr : zi.lineRef < h.lists.length) :
    ((zi.getitemR h items).2.lineRef ≠ zi.lineRef)
  ∧ ((zi.getitemR h items).1.get zi.lineRef = h.get zi.lineRef)
  ∧ ((zi.getitemR h items).1.get ((zi.getitemR h items).2.lineRef)
      = filterLine (h.get zi.lineRef) items)
  ∧ (((zi.getitemR h items).2.appendR ((zi.getitemR h items).1) c).get zi.lineRef
      = h.get zi.lineRef)
  ∧ ((((zi.getitemR h items).2.buildR ((zi.getitemR h items).1)).1).get zi.lineRef
      = h.get zi.lineRef) := by
  have hfresh : (zi.getitemR h items).2.lineRef = h.lists.length := rfl
  have hne : (zi.getitemR h items).2.lineRef ≠ zi.lineRef := by
    rw [hfresh]; exact Nat.ne_of_gt hr
  have hold : (zi.getitemR h items).1.get zi.lineRef = h.get zi.lineRef :=
    Heap.get_alloc_old h _ zi.lineRef hr
  refine ⟨hne, hold, ?_, ?_, ?_⟩
  · exact Heap.get_alloc_new h _
  · rw [RInput.appendR_frame _ _ _ _ hne, hold]
  · rw [RInput.buildR_frame _ _ _ hne, hold]

theorem getitem_fresh_list_frame_witness :
    ((sampleRInput.getitemR sampleHeap [Discr.ofType CommandKind.objet]).2.lineRef
        ≠ sampleRInput.lineRef)
  ∧ ((sampleRInput.getitemR sampleHeap [Discr.ofType CommandKind.objet]).1.get
        sampleRInput.lineRef = sampleHeap.get sampleRInput.lineRef)
  ∧ ((sampleRInput.getitemR sampleHeap [Discr.ofType CommandKind.objet]).1.get
        ((sampleRInput.getitemR sampleHeap [Discr.ofType CommandKind.objet]).2.lineRef)
      = filterLine (sampleHeap.get sampleRInput.lineRef) [Discr.ofType CommandKind.objet])
  ∧ (((sampleRInput.getitemR sampleHeap [Discr.ofType CommandKind.objet]).2.appendR
        ((sampleRInput.getitemR sampleHeap [Discr.ofType CommandKind.objet]).1)
        commandEnd).get sampleRInput.lineRef
      = sampleHeap.get sampleRInput.lineRef)
  ∧ ((((sampleRInput.getitemR sampleHeap [Discr.ofType CommandKind.objet]).2.buildR
        ((sampleRInput.getitemR sampleHeap [Discr.ofType CommandKind.objet]).1)).1).get
        sampleRInput.lineRef
      = sampleHeap.get sampleRInput.lineRef) :=
  getitem_fresh_list_frame sampleHeap sampleRInput [Discr.ofType CommandKind.objet]
    commandEnd (by decide)

theorem matches_objet2_imp (k : CommandKind) (h : k.matches .objet2 = true) :
    k.matches .objet = true := by
  cases k <;> revert h <;> decide

theorem writeTo_line_shape (zi : Input) (fn pth : String) (c0 p0 : Command)
    (rest : List Command) (h : zi.line = c0 :: p0 :: rest) :
    ∃ rest2, ((zi.writeTo fn pth).2).line = c0 :: p0 :: rest2 := by
  simp only [Input.writeTo, Input.build, h]
  by_cases hc : (c0 :: p0 :: rest).isEmpty || !endsWithEnd (c0 :: p0 :: rest)
  · have hc' : endsWithEnd (c0 :: p0 :: rest) = false := by simpa using hc
    exact ⟨rest ++ [commandEnd], by simp [hc']⟩
  · have hc' : endsWithEnd (c0 :: p0 :: rest) = true := by simpa using hc
    exact ⟨rest, by simp [hc']⟩

theorem loopSlices_ok (fn : String) (wcId : Nat) (obj0 p0 : Command) :
    ∀ (slices : List (List Nat)),
      (∀ s ∈ slices, s.length ≤ ZGOUBI_IMAX) →
      ∀ (self wc : Input) (fresh : Nat) (ws : List WriteOp) (pl : List Nat)
        (rest : List Command),
        wc.line = { obj0 with payload := pl } :: p0 :: rest →
        ∃ gen ws2 newPaths,
          loopSlices fn wcId slices self wc fresh ws
            = .ok { self with paths := self.paths ++ newPaths,
                              inputs := self.inputs ++ List.replicate slices.length wcId }
                (some (wcId, gen)) ws2
          ∧ newPaths.length = slices.length
          ∧ ws2.length = ws.length + slices.length
          ∧ ∃ pl2 rest2, gen.line = { obj0 with payload := pl2 } :: p0 :: rest2 := by
  intro slices
  induction slices with
  | nil =>
    intro _ self wc fresh ws pl rest hline
    refine ⟨wc, ws, [], ?_, rfl, by simp, pl, rest, hline⟩
    simp [loopSlices]
  | cons s rest' ih =>
    intro hsz self wc fresh ws pl rest hline
    have hs : ¬ (s.length > ZGOUBI_IMAX) := by
      have := hsz s (by simp)
      omega
    have hwc1 : (wc.setHeadPayload s).line = { obj0 with payload := s } :: p0 :: rest := by
      simp [Input.setHeadPayload, hline]
    obtain ⟨rest2, hshape⟩ :=
      writeTo_line_shape (wc.setHeadPayload s) fn (tempDirName fresh)
        { obj0 with payload := s } p0 rest hwc1
    obtain ⟨gen, ws2, newPaths, heq, hnp, hws, hgen⟩ :=
      ih (fun t ht => hsz t (by simp [ht]))
        { self with paths := self.paths ++ [PathHandle.tempDir fresh],
                    inputs := self.inputs ++ [wcId] }
        (((wc.setHeadPayload s).writeTo fn (tempDirName fresh)).2)
        (fresh + 1)
        (ws ++ [((wc.setHeadPayload s).writeTo fn (tempDirName fresh)).1])
        s rest2 hshape
    refine ⟨gen, ws2, PathHandle.tempDir fresh :: newPaths, ?_, by simp [hnp], ?_, hgen⟩
    · have hstep : loopSlices fn wcId (s :: rest') self wc fresh ws
        = loopSlices fn wcId rest'
            { self with paths := self.paths ++ [PathHandle.tempDir fresh],
                        inputs := self.inputs ++ [wcId] }
            (((wc.setHeadPayload s).writeTo fn (tempDirName fresh)).2)
            (fresh + 1)
            (ws ++ [((wc.setHeadPayload s).writeTo fn (tempDirName fresh)).1]) := by
        simp only [loopSlices]
        rw [if_neg hs]
      rw [hstep, heq]
      simp [List.replicate_succ]
    · simp at hws
      simp [hws]
      omega

theorem loopSlices_err (fn : String) (wcId : Nat) :
    ∀ (slices : List (List Nat)), (∃ s ∈ slices, ZGOUBI_IMAX < s.length) →
    ∀ (self wc : Input) (fresh : Nat) (ws : List WriteOp),
      ∃ self2 ws2,
        loopSlices fn wcId slices self wc fresh ws
          = .err { message := imaxSliceMsg } self2 ws2 := by
  intro slices
  induction slices with
  | nil =>
    intro hbad
    simp at hbad
  | cons s rest' ih =>
    intro hbad self wc fresh ws
    by_cases hs : s.length > ZGOUBI_IMAX
    · refine ⟨self, ws, ?_⟩
      simp only [loopSlices]
      rw [if_pos hs]
    · have hbad' : ∃ t ∈ rest', ZGOUBI_IMAX < t.length := by
        rcases hbad with ⟨t, ht, htl⟩
        rcases List.mem_cons.mp ht with h | h
        · exact absurd (h ▸ htl) hs
        · exact ⟨t, h, htl⟩
      obtain ⟨self2, ws2, heq⟩ :=
        ih hbad'
          { self with paths := self.paths ++ [PathHandle.tempDir fresh],
                      inputs := self.inputs ++ [wcId] }
          (((wc.setHeadPayload s).writeTo fn (tempDirName fresh)).2)
          (fresh + 1)
          (ws ++ [((wc.setHeadPayload s).writeTo fn (tempDirName fresh)).1])
      refine ⟨self2, ws2, ?_⟩
      have hstep : loopSlices fn wcId (s :: rest') self wc fresh ws
        = loopSlices fn wcId rest'
            { self with paths := self.paths ++ [PathHandle.tempDir fresh],
                        inputs := self.inputs ++ [wcId] }
            (((wc.setHeadPayload s).writeTo fn (tempDirName fresh)).2)
            (fresh + 1)
            (ws ++ [((wc.setHeadPayload s).writeTo fn (tempDirName fresh)).1]) := by
        simp only [loopSlices]
        rw [if_neg hs]
      rw [hstep, heq]

/-- C4: for an `Input` free of Particule and Objet-family records and a
beam whose distribution is split into N slices, if every slice has at
most 10000 particles the call appends N generated-path entries and N
sibling-input entries — every sibling entry being the same single
working-copy identifier — and in the working copy the beam's objet record
(its payload reloaded per slice) is first and the particle record second;
if some slice has more than 10000 particles the call instead raises the
structured slice-ceiling `ZgoubiInputException`. -/
theorem call_beam_slices (zi : Input) (b : Beam) (fn p : String) (wcId fresh : Nat)
    (slices : List (List Nat))
    (hfree : zi.line.all
      (fun c => !(c.isObjetFamily || c.kind.matches CommandKind.particule)) = true)
    (hdist : b.distribution = some slices) :
    ((∀ s ∈ slices, s.length ≤ ZGOUBI_IMAX) →
      ∃ gen ws newPaths,
        Input.call zi (some b) fn p wcId fresh
          = .ok { zi with paths := zi.paths ++ newPaths,
                          inputs := zi.inputs ++ List.replicate slices.length wcId }
              (some (wcId, gen)) ws
        ∧ newPaths.length = slices.length
        ∧ ws.length = slices.length
        ∧ ∃ pl rest, gen.line = { b.objet b.brho with payload := pl } :: b.particle :: rest)
  ∧ ((∃ s ∈ slices, ZGOUBI_IMAX < s.length) →
      ∃ self2 ws2,
        Input.call zi (some b) fn p wcId fresh
          = .err { message := imaxSliceMsg } self2 ws2) := by
  have hfree' := List.all_eq_true.mp hfree
  have hobj : filterLine zi.line [Discr.ofType CommandKind.objet2] = [] := by
    simp only [filterLine, resolveItems, resolveDiscr]
    refine List.filter_eq_nil_iff.mpr ?_
    intro c hc
    have h1 := hfree' c hc
    simp [Command.isObjetFamily] at h1
    intro h2
    simp only [matchesAny, List.any_cons, List.any_nil, Bool.or_false] at h2
    exact absurd (matches_objet2_imp c.kind h2) (by simp [h1.1.1])
  have hpart : filterLine zi.line [Discr.ofType CommandKind.particule] = [] := by
    simp only [filterLine, resolveItems, resolveDiscr]
    refine List.filter_eq_nil_iff.mpr ?_
    intro c hc
    have h1 := hfree' c hc
    simp [Command.isObjetFamily] at h1
    intro h2
    simp only [matchesAny, List.any_cons, List.any_nil, Bool.or_false] at h2
    exact absurd h2 (by simp [h1.2])
  have hcall : Input.call zi (some b) fn p wcId fresh
      = loopSlices fn wcId slices zi
          { name := zi.name, line := b.objet b.brho :: b.particle :: zi.line } fresh [] := by
    simp only [Input.call, hobj, hpart, hdist]
    rfl
  constructor
  · intro hsz
    obtain ⟨gen, ws2, newPaths, heq, hnp, hws, hgen⟩ :=
      loopSlices_ok fn wcId (b.objet b.brho) b.particle slices hsz zi
        { name := zi.name, line := b.objet b.brho :: b.particle :: zi.line }
        fresh [] (b.objet b.brho).payload zi.line rfl
    refine ⟨gen, ws2, newPaths, ?_, hnp, by simpa using hws, hgen⟩
    rw [hcall, heq]
  · intro hbad
    obtain ⟨self2, ws2, heq⟩ :=
      loopSlices_err fn wcId slices hbad zi
        { name := zi.name, line := b.objet b.brho :: b.particle :: zi.line } fresh []
    refine ⟨self2, ws2, ?_⟩
    rw [hcall, heq]

theorem call_beam_slices_witness :
    (∃ gen ws newPaths,
        Input.call sampleInputFree (some sampleBeam) ZGOUBI_INPUT_FILENAME "." 5 7
          = .ok { sampleInputFree with
                    paths := sampleInputFree.paths ++ newPaths,
                    inputs := sampleInputFree.inputs ++ List.replicate 2 5 }
              (some (5, gen)) ws
      ∧ newPaths.length = 2
      ∧ ws.length = 2
      ∧ ∃ pl rest, gen.line
          = { sampleBeam.objet sampleBeam.brho with payload := pl }
              :: sampleBeam.particle :: rest)
  ∧ (∃ self2 ws2,
        Input.call sampleInputFree (some sampleBeamOversized) ZGOUBI_INPUT_FILENAME "." 5 7
          = .err { message := imaxSliceMsg } self2 ws2) :=
  ⟨(call_beam_slices sampleInputFree sampleBeam ZGOUBI_INPUT_FILENAME "." 5 7
      [[1, 2], [3]] (by decide) rfl).1 (by decide),
   (call_beam_slices sampleInputFree sampleBeamOversized ZGOUBI_INPUT_FILENAME "." 5 7
      [List.replicate 10001 0] (by decide) rfl).2
     ⟨List.replicate 10001 0, List.mem_singleton.mpr rfl,
      by rw [List.length_replicate]; norm_num [ZGOUBI_IMAX]⟩⟩
